import Mathlib

/-!
Verification development for the explosives issuance/stock logbook
application (a single-file Streamlit app, `app.py`).

The app keeps three pieces of in-memory session state — the issuance
record list `data`, the stock record list `stock`, and the mine registry
`mines` — plus two durable CSV files that `save_csv_data` rewrites in
full on some mutations.  All definitions below are shallow embeddings of
the corresponding Python functions and form-submission handlers, with
the input domains of the Streamlit widgets reflected in the types
(e.g. `st.number_input(min_value=0, step=1)` yields a `Nat`, a
`st.selectbox` over the three explosive types yields the enumerated
`ExplosiveType`).
-/

set_option maxRecDepth 4000
set_option linter.unnecessarySeqFocus false

/-- Calendar date as entered through `st.date_input` (year, month, day). -/
structure Date where
  year : Nat
  month : Nat
  day : Nat
deriving DecidableEq, Repr

/-- The fixed enumerated set of explosive types, `explosive_types =
["Wabox Cartridges", "Detonators", "Safety Fuse (m)"]` (app.py:90);
both the issuance quantity columns and the stock-type selectbox range
over exactly these three. -/
inductive ExplosiveType where
  | wabox
  | detonators
  | safetyFuse
deriving DecidableEq, Repr

/-- The CSV column name of an explosive type (the strings of
`explosive_types` in app.py:90). -/
def ExplosiveType.columnName : ExplosiveType → String
  | .wabox => "Wabox Cartridges"
  | .detonators => "Detonators"
  | .safetyFuse => "Safety Fuse (m)"

/-- One entry of `st.session_state['data']`: the dict appended by the
issuance form (app.py:161-170).  Quantities come from
`st.number_input(min_value=0, step=1)`, hence `Nat`. -/
structure IssuanceRecord where
  date : Date
  mine : String
  issuedBy : String
  receivedBy : String
  remarks : String
  wabox : Nat
  detonators : Nat
  fuse : Nat
deriving DecidableEq, Repr

/-- The quantity column of an issuance record for a given explosive
type (the per-type dict entries "Wabox Cartridges", "Detonators",
"Safety Fuse (m)"). -/
def IssuanceRecord.qty (r : IssuanceRecord) : ExplosiveType → Nat
  | .wabox => r.wabox
  | .detonators => r.detonators
  | .safetyFuse => r.fuse

/-- One entry of `st.session_state['stock']`: the dict appended by the
stock form (app.py:220-225).  `Quantity` comes from
`st.number_input(min_value=0, step=1)`, hence `Nat`; `Explosive Type`
from a selectbox over the fixed three types. -/
structure StockRecord where
  serialNo : String
  receivingDate : Date
  explosiveType : ExplosiveType
  quantity : Nat
deriving DecidableEq, Repr

/-- What `df.to_csv(file, index=False)` persists: a header line of
column names followed by one row of cells per record. -/
structure CsvFile where
  header : List String
  rows : List (List String)
deriving DecidableEq, Repr

/-- The textual rendering of a date cell (Python's ISO `str(date)`;
zero-padding is immaterial to every property proved here). -/
def dateStr (d : Date) : String :=
  toString d.year ++ "-" ++ toString d.month ++ "-" ++ toString d.day

/-- The dict (ordered key/value pairs) appended for an issuance entry
(app.py:161-170). -/
def issuanceDict (r : IssuanceRecord) : List (String × String) :=
  [("Date", dateStr r.date), ("Mine", r.mine), ("Issued By", r.issuedBy),
   ("Received By", r.receivedBy), ("Remarks", r.remarks),
   ("Wabox Cartridges", toString r.wabox), ("Detonators", toString r.detonators),
   ("Safety Fuse (m)", toString r.fuse)]

/-- The dict appended for a stock entry (app.py:220-225). -/
def stockDict (r : StockRecord) : List (String × String) :=
  [("Serial No", r.serialNo), ("Receiving Date", dateStr r.receivingDate),
   ("Explosive Type", r.explosiveType.columnName), ("Quantity", toString r.quantity)]

/-- Cell selection of `df[columns]`: the value a record dict holds for
a column.  Every dict the app ever passes to `save_csv_data` (built by
`issuanceDict` / `stockDict`) carries all of its kind's columns, so the
`none` default is never hit by the theorems below. -/
def lookupField (d : List (String × String)) (c : String) : String :=
  match d.find? (fun p => p.1 == c) with
  | some p => p.2
  | none => ""

/-- The fixed issuance column order (app.py:171 and 39-48). -/
def issuance_columns : List String :=
  ["Date", "Mine", "Issued By", "Received By", "Remarks",
   "Wabox Cartridges", "Detonators", "Safety Fuse (m)"]

/-- The fixed stock column order (app.py:226 and 52). -/
def stock_columns : List String :=
  ["Serial No", "Receiving Date", "Explosive Type", "Quantity"]

/-- `save_csv_data(file, data, columns)` (app.py:23-30): builds
`pd.DataFrame(data)`, reorders with `df[columns]` only when the frame
is non-empty (`pd.DataFrame([])` has no columns, and `to_csv` then
writes an empty header), and writes header plus rows.  Modelled as the
resulting file contents. -/
def save_csv_data (data : List (List (String × String))) (columns : List String) :
    CsvFile :=
  if data.isEmpty then { header := [], rows := [] }
  else { header := columns, rows := data.map (fun d => columns.map (lookupField d)) }

/-- The in-memory session state together with the two durable files:
`st.session_state['data']`, `st.session_state['stock']`,
`st.session_state['mines']`, and the contents of `issuance_data.csv`
and `stock_data.csv`. -/
structure AppState where
  data : List IssuanceRecord
  stock : List StockRecord
  mines : List String
  dataFile : CsvFile
  stockFile : CsvFile
deriving DecidableEq, Repr

/-- The state at process start: collections as loaded from the two CSV
files (empty when absent or unparseable, app.py:13-20) and the default
mine registry `["Mine1", "Mine2", "Mine3"]` (app.py:64). -/
def initialState (loadedData : List IssuanceRecord) (loadedStock : List StockRecord)
    (dataFile stockFile : CsvFile) : AppState :=
  { data := loadedData, stock := loadedStock,
    mines := ["Mine1", "Mine2", "Mine3"],
    dataFile := dataFile, stockFile := stockFile }

/-- `get_stock_balance()` (app.py:95-110) at one explosive type:
received = `stock_df.groupby('Explosive Type')['Quantity'].sum()`
(or a zero series when the stock list is empty), issued = the sum of
the type's quantity column over the issuance list (or a zero series
when it is empty), balance = `received.subtract(issued, fill_value=0)`.
For a type of the fixed set the subtraction with `fill_value=0` is
exactly received minus issued with absent entries read as 0. -/
def get_stock_balance (stock : List StockRecord) (data : List IssuanceRecord)
    (t : ExplosiveType) : Int :=
  let received : Int :=
    if stock.isEmpty then 0
    else ((stock.filter (fun r => r.explosiveType == t)).map
      (fun r => (r.quantity : Int))).sum
  let issued : Int :=
    if data.isEmpty then 0
    else (data.map (fun r => (r.qty t : Int))).sum
  received - issued

/-- Outcome reported by the add-mine form (app.py:68-73):
`st.success` on append, `st.warning` when the mine already exists, and
no message at all when the submitted name is empty. -/
inductive MineFormMsg where
  | success
  | alreadyExists
deriving DecidableEq, Repr

/-- The add-mine form handler (app.py:65-73): `if add_mine_btn and
new_mine:` guards everything, then `if new_mine not in mines: append
else warning`.  Returns the new state and the message shown (`none`
when the guard fails: a silent no-op). -/
def add_mine (s : AppState) (newMine : String) : AppState × Option MineFormMsg :=
  if newMine ≠ "" then
    if newMine ∉ s.mines then
      ({ s with mines := s.mines ++ [newMine] }, some .success)
    else (s, some .alreadyExists)
  else (s, none)

/-- The rename handler for the text box of registry index `i`
(app.py:77-85): when the entered `new_name` differs from `mines[i]`
and is non-empty, every issuance record whose `Mine` equals `mines[i]`
is rewritten to `new_name` and `mines[i]` is replaced; otherwise
nothing happens.  No duplicate check and no `save_csv_data` call. -/
def rename_mine (s : AppState) (i : Nat) (newName : String) : AppState :=
  match s.mines.get? i with
  | none => s
  | some mine =>
    if newName ≠ mine ∧ newName ≠ "" then
      { s with
        data := s.data.map (fun e => if e.mine = mine then { e with mine := newName } else e),
        mines := s.mines.set i newName }
    else s

/-- The issuance form submission (app.py:160-172): appends the dict of
the widget values to `st.session_state['data']` and rewrites
`issuance_data.csv` with the full collection.  The widgets constrain
the draft: `mine` is chosen by a selectbox over the registry, the
quantities are `Nat`.  There is no validation branch: every
submittable draft is appended. -/
def entry_form_submit (s : AppState) (d : IssuanceRecord) : AppState :=
  let data' := s.data ++ [d]
  { s with
    data := data',
    dataFile := save_csv_data (data'.map issuanceDict) issuance_columns }

/-- Outcome reported by the stock form (app.py:219-229): success when
the record is appended, the warning "Please enter serial no and
quantity." otherwise. -/
inductive StockFormMsg where
  | success
  | validationError
deriving DecidableEq, Repr

/-- The stock form submission (app.py:218-229): `if add_stock_btn and
stock_qty > 0 and stock_serial:` appends the dict and rewrites
`stock_data.csv` with the full collection; `elif add_stock_btn:` shows
the validation warning and changes nothing. -/
def add_stock_form_submit (s : AppState) (serial : String) (rdate : Date)
    (ty : ExplosiveType) (qty : Nat) : AppState × StockFormMsg :=
  if qty > 0 ∧ serial ≠ "" then
    let stock' := s.stock ++ [{ serialNo := serial, receivingDate := rdate,
                                explosiveType := ty, quantity := qty }]
    ({ s with
       stock := stock',
       stockFile := save_csv_data (stock'.map stockDict) stock_columns }, .success)
  else (s, .validationError)

/-- `df['Date'].dt.to_period('M')` (app.py:120): the calendar month a
date falls in. -/
structure Month where
  year : Nat
  month : Nat
deriving DecidableEq, Repr

/-- Truncation of a date to its calendar month. -/
def monthOf (d : Date) : Month := { year := d.year, month := d.month }

/-- The per-type total issued by one mine (one group of
`df.groupby('Mine')[types].sum()`, app.py:121). -/
def mineTotal (data : List IssuanceRecord) (mi : String) (t : ExplosiveType) : Nat :=
  ((data.filter (fun r => r.mine == mi)).map (fun r => r.qty t)).sum

/-- The per-type total issued by one mine in one month (one group of
the `groupby(['Month','Mine'])` / `groupby(['Mine','Month'])` sums,
app.py:123 and 125). -/
def mineMonthTotal (data : List IssuanceRecord) (mi : String) (mo : Month)
    (t : ExplosiveType) : Nat :=
  ((data.filter (fun r => r.mine == mi && monthOf r.date == mo)).map
    (fun r => r.qty t)).sum

/-- The group keys of `df.groupby('Mine')`: the distinct mine names
occurring in the issuance data.  (pandas lists groups in sorted key
order; only which keys occur matters to the properties proved here,
so keys are collected in first-occurrence order.) -/
def summaryKeys (data : List IssuanceRecord) : List String :=
  (data.map (fun r => r.mine)).dedup

/-- One row of the Summary report, app.py:121. -/
structure SummaryRow where
  mine : String
  wabox : Nat
  detonators : Nat
  fuse : Nat
deriving DecidableEq, Repr

/-- The Summary report `reports['Summary']` (app.py:121): one row per
distinct mine with the three per-type sums. -/
def summaryReport (data : List IssuanceRecord) : List SummaryRow :=
  (summaryKeys data).map (fun mi =>
    { mine := mi,
      wabox := mineTotal data mi .wabox,
      detonators := mineTotal data mi .detonators,
      fuse := mineTotal data mi .safetyFuse })

/-- The group keys of `df.groupby(['Month','Mine'])` (app.py:123):
distinct (month, mine) pairs occurring in the data. -/
def monthlyKeys (data : List IssuanceRecord) : List (Month × String) :=
  (data.map (fun r => (monthOf r.date, r.mine))).dedup

/-- The group keys of `df.groupby(['Mine','Month'])` (app.py:125):
distinct (mine, month) pairs occurring in the data. -/
def minewiseKeys (data : List IssuanceRecord) : List (String × Month) :=
  (data.map (fun r => (r.mine, monthOf r.date))).dedup

/-- One aggregate row of the Monthly or Mine-wise report: the group's
mine, month, and per-type sums.  The two reports differ only in which
key column comes first, so one row shape carries both. -/
structure GroupRow where
  mine : String
  month : Month
  wabox : Nat
  detonators : Nat
  fuse : Nat
deriving DecidableEq, Repr

/-- The row of aggregates for the group (mi, mo). -/
def groupRowOf (data : List IssuanceRecord) (mi : String) (mo : Month) : GroupRow :=
  { mine := mi, month := mo,
    wabox := mineMonthTotal data mi mo .wabox,
    detonators := mineMonthTotal data mi mo .detonators,
    fuse := mineMonthTotal data mi mo .safetyFuse }

/-- The Monthly report `reports['Monthly']` (app.py:123): grouped by
(Month, Mine). -/
def monthlyReport (data : List IssuanceRecord) : List GroupRow :=
  (monthlyKeys data).map (fun k => groupRowOf data k.2 k.1)

/-- The Mine-wise report `reports['Mine-wise']` (app.py:125): grouped
by (Mine, Month). -/
def minewiseReport (data : List IssuanceRecord) : List GroupRow :=
  (minewiseKeys data).map (fun k => groupRowOf data k.1 k.2)

/-- The cascade of the rename handler over the issuance records
(app.py:81-83): every record whose `Mine` equals `old` is rewritten to
`new`, the rest untouched.  `rename_mine` applies exactly this map. -/
def renameData (old new : String) (data : List IssuanceRecord) : List IssuanceRecord :=
  data.map (fun e => if e.mine = old then { e with mine := new } else e)

/-! ### Concrete sample states (used by the witness theorems below) -/

/-- An empty durable file. -/
def emptyFile : CsvFile := { header := [], rows := [] }

/-- A fresh session: nothing loaded, default registry. -/
def freshState : AppState := initialState [] [] emptyFile emptyFile

/-- A stock record with serial "S1". -/
def sampleStockA : StockRecord :=
  { serialNo := "S1", receivingDate := { year := 2024, month := 1, day := 1 },
    explosiveType := .wabox, quantity := 3 }

/-- A later stock record reusing serial "S1". -/
def sampleStockDup : StockRecord :=
  { serialNo := "S1", receivingDate := { year := 2024, month := 1, day := 5 },
    explosiveType := .detonators, quantity := 5 }

/-- A session whose stock already holds serial "S1". -/
def dupSerialState : AppState := initialState [] [sampleStockA] emptyFile emptyFile

/-- An issuance record for the registered mine "Mine1". -/
def sampleIssuance : IssuanceRecord :=
  { date := { year := 2024, month := 3, day := 4 }, mine := "Mine1",
    issuedBy := "E", receivedBy := "B", remarks := "",
    wabox := 1, detonators := 2, fuse := 3 }

/-- An issuance record for the registered mine "Mine2". -/
def sampleIssuanceB : IssuanceRecord :=
  { date := { year := 2024, month := 4, day := 6 }, mine := "Mine2",
    issuedBy := "E2", receivedBy := "B2", remarks := "r",
    wabox := 4, detonators := 0, fuse := 2 }

/-- A session holding two issuance records (mines "Mine1" and "Mine2"). -/
def twoEntryState : AppState :=
  initialState [sampleIssuance, sampleIssuanceB] [] emptyFile emptyFile

/-- A session whose issuance file is in sync with its single record. -/
def syncedState : AppState :=
  initialState [sampleIssuance] []
    (save_csv_data [issuanceDict sampleIssuance] issuance_columns) emptyFile

/-! ### Stock balance -/

/-- Unfolding of `get_stock_balance`: the empty-collection branches of
the Python code (a zero series) coincide with sums over empty lists,
so the balance is always received-sum minus issued-sum. -/
theorem get_stock_balance_eq (stock : List StockRecord) (data : List IssuanceRecord)
    (t : ExplosiveType) :
    get_stock_balance stock data t =
      ((stock.filter (fun r => r.explosiveType == t)).map
        (fun r => (r.quantity : Int))).sum
      - (data.map (fun r => (r.qty t : Int))).sum := by
  unfold get_stock_balance
  cases stock <;> cases data <;> simp

/-- C1: for every pair of stock and issuance collections and every
explosive type of the fixed set, the balance equals the sum of stock
quantities of that type minus the sum of the type's issuance column;
a type absent from either collection contributes zero to that sum, and
the result may be negative without clamping — e.g. stock
[{Detonators, 2}] against issuance [{Detonators, 5}] gives -3. -/
theorem get_stock_balance_is_received_minus_issued :
    (∀ (stock : List StockRecord) (data : List IssuanceRecord) (t : ExplosiveType),
      get_stock_balance stock data t =
        ((stock.filter (fun r => r.explosiveType == t)).map
          (fun r => (r.quantity : Int))).sum
        - (data.map (fun r => (r.qty t : Int))).sum)
    ∧ get_stock_balance
        [{ serialNo := "S1", receivingDate := { year := 2024, month := 1, day := 1 },
           explosiveType := .detonators, quantity := 2 }]
        [{ date := { year := 2024, month := 1, day := 2 }, mine := "Mine1",
           issuedBy := "Eng", receivedBy := "Blaster", remarks := "",
           wabox := 0, detonators := 5, fuse := 0 }]
        .detonators = -3 := by
  constructor
  · exact get_stock_balance_eq
  · decide

/-- C6: the balance is linear in both collections: appending a stock
record of quantity q and type T raises balance[T] by q and leaves
every other type's balance unchanged; appending an issuance record
lowers balance[T] by exactly that record's T quantity (in particular,
a record carrying q for T and zero elsewhere lowers balance[T] by q). -/
theorem get_stock_balance_linear :
    (∀ (stock : List StockRecord) (data : List IssuanceRecord) (r : StockRecord),
      get_stock_balance (stock ++ [r]) data r.explosiveType
        = get_stock_balance stock data r.explosiveType + r.quantity)
    ∧ (∀ (stock : List StockRecord) (data : List IssuanceRecord) (r : StockRecord)
        (t : ExplosiveType), t ≠ r.explosiveType →
      get_stock_balance (stock ++ [r]) data t = get_stock_balance stock data t)
    ∧ (∀ (stock : List StockRecord) (data : List IssuanceRecord)
        (irec : IssuanceRecord) (t : ExplosiveType),
      get_stock_balance stock (data ++ [irec]) t
        = get_stock_balance stock data t - irec.qty t) := by
  refine ⟨?_, ?_, ?_⟩
  · intro stock data r
    simp [get_stock_balance_eq, List.filter_append, List.sum_append]
    omega
  · intro stock data r t h
    have hbeq : (r.explosiveType == t) = false := by
      simp [BEq.beq]
      exact fun he => h he.symm
    simp [get_stock_balance_eq, List.filter_append, List.sum_append, hbeq]
  · intro stock data irec t
    simp [get_stock_balance_eq, List.map_append, List.sum_append]
    omega

/-- Witness for the linearity theorem at concrete collections: the
other-type clause applied at Wabox Cartridges against a Detonators
stock record. -/
theorem get_stock_balance_linear_witness :
    ExplosiveType.wabox ≠ ExplosiveType.detonators
    ∧ get_stock_balance
        ([{ serialNo := "A", receivingDate := { year := 2024, month := 2, day := 3 },
            explosiveType := .wabox, quantity := 7 }] ++
         [{ serialNo := "B", receivingDate := { year := 2024, month := 2, day := 4 },
            explosiveType := .detonators, quantity := 4 }])
        [] .wabox
      = get_stock_balance
          [{ serialNo := "A", receivingDate := { year := 2024, month := 2, day := 3 },
             explosiveType := .wabox, quantity := 7 }] [] .wabox :=
  ⟨by decide,
   get_stock_balance_linear.2.1
     [{ serialNo := "A", receivingDate := { year := 2024, month := 2, day := 3 },
        explosiveType := .wabox, quantity := 7 }] []
     { serialNo := "B", receivingDate := { year := 2024, month := 2, day := 4 },
       explosiveType := .detonators, quantity := 4 }
     .wabox (by decide)⟩


/-! ### Entry forms -/

/-- C5: the stock form appends the record and rewrites the stock file
if and only if the serial number is non-empty and the quantity is
strictly positive; otherwise it reports the validation warning and
leaves the state (stock collection included) unchanged.  In particular
an empty serial with quantity 5 is rejected.  No serial-number
uniqueness check exists: the append clause has no hypothesis about the
existing collection. -/
theorem add_stock_form_appends_iff_valid :
    (∀ (s : AppState) (serial : String) (rdate : Date) (ty : ExplosiveType) (qty : Nat),
      (qty > 0 ∧ serial ≠ "" →
        add_stock_form_submit s serial rdate ty qty =
          ({ s with
             stock := s.stock ++ [({ serialNo := serial, receivingDate := rdate,
                                     explosiveType := ty, quantity := qty } : StockRecord)],
             stockFile := save_csv_data
               ((s.stock ++ [({ serialNo := serial, receivingDate := rdate,
                                explosiveType := ty, quantity := qty } : StockRecord)]).map
                 stockDict)
               stock_columns }, .success))
      ∧ (¬(qty > 0 ∧ serial ≠ "") →
        add_stock_form_submit s serial rdate ty qty = (s, .validationError)))
    ∧ (∀ (s : AppState) (rdate : Date) (ty : ExplosiveType),
        add_stock_form_submit s "" rdate ty 5 = (s, .validationError)) := by
  constructor
  · intro s serial rdate ty qty
    constructor
    · intro h
      simp [add_stock_form_submit, h]
    · intro h
      simp only [add_stock_form_submit, if_neg h]
  · intro s rdate ty
    simp [add_stock_form_submit]

/-- Witness for the stock-form theorem: a valid draft whose serial
number duplicates one already in stock is still appended (duplicates
permitted), by the append clause at the concrete state
`dupSerialState`. -/
theorem add_stock_form_appends_iff_valid_witness :
    ((5 : Nat) > 0 ∧ "S1" ≠ "")
    ∧ add_stock_form_submit dupSerialState "S1"
        { year := 2024, month := 1, day := 5 } .detonators 5 =
      ({ dupSerialState with
         stock := dupSerialState.stock ++ [sampleStockDup],
         stockFile := save_csv_data
           ((dupSerialState.stock ++ [sampleStockDup]).map stockDict)
           stock_columns }, .success) :=
  ⟨by decide,
   (add_stock_form_appends_iff_valid.1 dupSerialState "S1"
      { year := 2024, month := 1, day := 5 } .detonators 5).1 (by decide)⟩

/-- C4: every draft that the issuance form can submit satisfies the
validation conditions — the mine comes from a selectbox over the
registry (hence is a registered name) and the quantities come from
`st.number_input(min_value=0)` (hence are non-negative integers) —
and on submission the record is appended and the issuance file is
rewritten with the full collection, the rest of the state untouched.
The validation-failure branch of the contract is unreachable in the
code: the widgets make an invalid draft unrepresentable, so nothing is
ever rejected and no invalid record is ever appended. -/
theorem entry_form_submit_valid_and_appends :
    ∀ (s : AppState) (d : IssuanceRecord), d.mine ∈ s.mines →
      (d.mine ∈ s.mines ∧ (∀ t, 0 ≤ d.qty t))
      ∧ entry_form_submit s d =
          { s with
            data := s.data ++ [d],
            dataFile := save_csv_data ((s.data ++ [d]).map issuanceDict)
              issuance_columns } := by
  intro s d h
  exact ⟨⟨h, fun _ => Nat.zero_le _⟩, rfl⟩

/-- Witness for the issuance-form theorem at the fresh state and a
draft for the registered mine "Mine1". -/
theorem entry_form_submit_valid_and_appends_witness :
    sampleIssuance.mine ∈ freshState.mines
    ∧ ((sampleIssuance.mine ∈ freshState.mines ∧ (∀ t, 0 ≤ sampleIssuance.qty t))
       ∧ entry_form_submit freshState sampleIssuance =
          { freshState with
            data := freshState.data ++ [sampleIssuance],
            dataFile := save_csv_data ((freshState.data ++ [sampleIssuance]).map
              issuanceDict) issuance_columns }) :=
  ⟨by decide, entry_form_submit_valid_and_appends freshState sampleIssuance (by decide)⟩

/-- C10: submitting the add-mine form with an empty name is a silent
no-op (state unchanged, neither success nor warning shown), and a
rename text box holding the empty string or the mine's current name
changes nothing. -/
theorem empty_or_same_name_is_noop :
    (∀ s : AppState, add_mine s "" = (s, none))
    ∧ (∀ (s : AppState) (i : Nat), rename_mine s i "" = s)
    ∧ (∀ (s : AppState) (i : Nat) (m : String),
        s.mines.get? i = some m → rename_mine s i m = s) := by
  refine ⟨?_, ?_, ?_⟩
  · intro s
    simp [add_mine]
  · intro s i
    unfold rename_mine
    cases h : s.mines.get? i <;> simp
  · intro s i m h
    unfold rename_mine
    rw [h]
    simp

/-- Witness for the no-op theorem: renaming registry slot 0 of the
fresh state to its current name "Mine1" changes nothing. -/
theorem empty_or_same_name_is_noop_witness :
    freshState.mines.get? 0 = some "Mine1"
    ∧ rename_mine freshState 0 "Mine1" = freshState :=
  ⟨by decide, empty_or_same_name_is_noop.2.2 freshState 0 "Mine1" (by decide)⟩

/-! ### Mine registry -/

/-- `add_mine` keeps the registry duplicate-free: the appended name was
checked against the registry first. -/
theorem add_mine_preserves_nodup (s : AppState) (n : String) (h : s.mines.Nodup) :
    (add_mine s n).1.mines.Nodup := by
  unfold add_mine
  by_cases h1 : n = ""
  · simp [h1, h]
  · by_cases h2 : n ∈ s.mines
    · simp [h1, h2, h]
    · simp [h1, h2, List.nodup_append, h]

/-- Registry uniqueness survives any sequence of add-mine submissions. -/
theorem foldl_add_mine_nodup (adds : List String) (s : AppState) (h : s.mines.Nodup) :
    (adds.foldl (fun s n => (add_mine s n).1) s).mines.Nodup := by
  induction adds generalizing s with
  | nil => exact h
  | cons a l ih => exact ih _ (add_mine_preserves_nodup s a h)

/-- C3 counterexample: one rename from the initial registry produces a
duplicate name.  Renaming registry slot 1 ("Mine2") to "Mine1" passes
the handler's only guards (non-empty, differs from the current name) —
there is no duplicate check — and yields the registry
["Mine1", "Mine1", "Mine3"], which is not duplicate-free. -/
theorem rename_mine_introduces_duplicate :
    (rename_mine freshState 1 "Mine1").mines = ["Mine1", "Mine1", "Mine3"]
    ∧ ¬ (rename_mine freshState 1 "Mine1").mines.Nodup := by
  exact ⟨by decide, by decide⟩

/-- C3 (amended): the add-mine form rejects a name that is already
registered (case-sensitive exact match) leaving the whole state
unchanged, and preserves registry uniqueness, so every state reached
from the initial registry by add-mine submissions alone has a
duplicate-free registry; the rename handler, however, performs no
duplicate check and can introduce a duplicate (see the
counterexample), so uniqueness does not hold at all times. -/
theorem registry_unique_under_add_mine :
    (∀ (s : AppState) (n : String), n ∈ s.mines → (add_mine s n).1 = s)
    ∧ (∀ (s : AppState) (n : String), s.mines.Nodup → (add_mine s n).1.mines.Nodup)
    ∧ (∀ (loadedData : List IssuanceRecord) (loadedStock : List StockRecord)
        (df sf : CsvFile) (adds : List String),
        (adds.foldl (fun s n => (add_mine s n).1)
          (initialState loadedData loadedStock df sf)).mines.Nodup) := by
  refine ⟨?_, add_mine_preserves_nodup, ?_⟩
  · intro s n h
    unfold add_mine
    by_cases h1 : n = "" <;> simp [h1, h]
  · intro loadedData loadedStock df sf adds
    exact foldl_add_mine_nodup adds _ (by simp [initialState])

/-- Witness for the amended registry theorem: adding the already
registered "Mine1" to the fresh state changes nothing, and adding the
new "Mine4" keeps the registry duplicate-free. -/
theorem registry_unique_under_add_mine_witness :
    ("Mine1" ∈ freshState.mines ∧ (add_mine freshState "Mine1").1 = freshState)
    ∧ (freshState.mines.Nodup ∧ (add_mine freshState "Mine4").1.mines.Nodup) :=
  ⟨⟨by decide, registry_unique_under_add_mine.1 freshState "Mine1" (by decide)⟩,
   ⟨by decide, registry_unique_under_add_mine.2.1 freshState "Mine4" (by decide)⟩⟩

/-! ### Rename cascade and the summary report -/

/-- Rewriting the mine field leaves the quantity columns alone. -/
theorem qty_set_mine (r : IssuanceRecord) (new : String) (t : ExplosiveType) :
    ({ r with mine := new } : IssuanceRecord).qty t = r.qty t := by
  cases t <;> rfl

/-- Unfolding of the per-mine total over a cons. -/
theorem mineTotal_cons (r : IssuanceRecord) (rest : List IssuanceRecord)
    (mi : String) (t : ExplosiveType) :
    mineTotal (r :: rest) mi t
      = (if r.mine = mi then r.qty t else 0) + mineTotal rest mi t := by
  by_cases h : r.mine = mi <;> simp [mineTotal, List.filter_cons, h]

/-- The cascade moves the old mine's total onto the new name: the new
name's total over the rewritten records is the sum of the two previous
totals. -/
theorem mineTotal_renameData (old new : String) (h : old ≠ new)
    (data : List IssuanceRecord) (t : ExplosiveType) :
    mineTotal (renameData old new data) new t
      = mineTotal data old t + mineTotal data new t := by
  induction data with
  | nil => simp [renameData, mineTotal]
  | cons r rest ih =>
    have hstep : renameData old new (r :: rest)
        = (if r.mine = old then { r with mine := new } else r) :: renameData old new rest := by
      simp [renameData]
    rw [hstep, mineTotal_cons, mineTotal_cons, mineTotal_cons, ih]
    by_cases hr : r.mine = old
    · simp [hr, qty_set_mine, h, Ne.symm h]
      omega
    · by_cases hn : r.mine = new <;> simp [hr, hn, h, Ne.symm h] <;> omega

/-- After the cascade no record carries the old mine name. -/
theorem renameData_no_old (old new : String) (h : old ≠ new)
    (data : List IssuanceRecord) :
    ∀ e ∈ renameData old new data, e.mine ≠ old := by
  intro e he
  simp only [renameData, List.mem_map] at he
  obtain ⟨r, _, rfl⟩ := he
  by_cases hr : r.mine = old
  · simp only [hr, if_pos rfl]
    exact Ne.symm h
  · simp only [if_neg hr]
    exact hr

/-- Every row of the summary report names a mine occurring in the
data: the groupby keys are exactly the mines present. -/
theorem summaryReport_mine_mem (data : List IssuanceRecord) (row : SummaryRow)
    (hrow : row ∈ summaryReport data) : ∃ e ∈ data, e.mine = row.mine := by
  simp only [summaryReport, summaryKeys, List.mem_map, List.mem_dedup] at hrow
  obtain ⟨mi, ⟨e, he, hmi⟩, hrw⟩ := hrow
  subst hrw
  exact ⟨e, he, hmi⟩

/-- C2: a rename with a non-empty name that differs from the current
one replaces the registry entry in place and rewrites the mine field
of every issuance record bearing the old name, both in the single
state update `rename_mine` (so never only some records); afterwards
the summary-by-mine report has no row for the old name, and the new
name's per-type totals are the old name's prior totals merged with the
new name's prior totals (the latter non-zero exactly when the new name
already had issuance records). -/
theorem rename_mine_cascade :
    ∀ (s : AppState) (i : Nat) (old newName : String),
      s.mines.get? i = some old → newName ≠ "" → newName ≠ old →
      (rename_mine s i newName).mines = s.mines.set i newName
      ∧ (rename_mine s i newName).data = renameData old newName s.data
      ∧ (∀ row ∈ summaryReport (rename_mine s i newName).data, row.mine ≠ old)
      ∧ (∀ t, mineTotal (rename_mine s i newName).data newName t
            = mineTotal s.data old t + mineTotal s.data newName t) := by
  intro s i old newName hget hne hneq
  have hstep : rename_mine s i newName =
      { s with data := renameData old newName s.data,
               mines := s.mines.set i newName } := by
    unfold rename_mine
    rw [hget]
    simp [renameData, hne, hneq]
  rw [hstep]
  refine ⟨rfl, rfl, ?_, ?_⟩
  · intro row hrow
    obtain ⟨e, he, hmine⟩ := summaryReport_mine_mem _ row hrow
    rw [← hmine]
    exact renameData_no_old old newName (Ne.symm hneq) s.data e he
  · intro t
    exact mineTotal_renameData old newName (Ne.symm hneq) s.data t

/-- Witness for the cascade theorem: renaming registry slot 0
("Mine1") of a two-entry session to "MineX" updates the registry in
place and merges the Wabox total of "Mine1" into "MineX". -/
theorem rename_mine_cascade_witness :
    (twoEntryState.mines.get? 0 = some "Mine1"
      ∧ "MineX" ≠ "" ∧ "MineX" ≠ "Mine1")
    ∧ (rename_mine twoEntryState 0 "MineX").mines = twoEntryState.mines.set 0 "MineX"
    ∧ mineTotal (rename_mine twoEntryState 0 "MineX").data "MineX" .wabox
        = mineTotal twoEntryState.data "Mine1" .wabox
          + mineTotal twoEntryState.data "MineX" .wabox :=
  ⟨⟨by decide, by decide, by decide⟩,
   (rename_mine_cascade twoEntryState 0 "Mine1" "MineX"
      (by decide) (by decide) (by decide)).1,
   (rename_mine_cascade twoEntryState 0 "Mine1" "MineX"
      (by decide) (by decide) (by decide)).2.2.2 .wabox⟩

/-! ### Persistence -/

/-- C7 counterexample: the rename handler calls no `save_csv_data`.
Starting from a session whose issuance file is in sync with its single
"Mine1" record, renaming registry slot 0 to "MineX" rewrites the
in-memory record but leaves the file exactly as it was, so the
persisted copy no longer reflects the current collection even though
no write failed. -/
theorem rename_mine_leaves_issuance_file_stale :
    (rename_mine syncedState 0 "MineX").data ≠ syncedState.data
    ∧ (rename_mine syncedState 0 "MineX").dataFile = syncedState.dataFile
    ∧ (rename_mine syncedState 0 "MineX").dataFile
        ≠ save_csv_data ((rename_mine syncedState 0 "MineX").data.map issuanceDict)
            issuance_columns := by
  refine ⟨by decide, rfl, by decide⟩

/-- C7 (amended): the issuance and stock form submissions rewrite
their durable file in full on every append (and touch only their own
file), but the add-mine and rename handlers write nothing at all — in
particular the rename cascade mutates issuance records in memory while
leaving `issuance_data.csv` stale until the next issuance submission
(and the mine registry has no durable file). -/
theorem files_rewritten_only_by_entry_forms :
    (∀ (s : AppState) (d : IssuanceRecord),
      (entry_form_submit s d).dataFile
        = save_csv_data ((entry_form_submit s d).data.map issuanceDict)
            issuance_columns
      ∧ (entry_form_submit s d).stockFile = s.stockFile)
    ∧ (∀ (s : AppState) (serial : String) (rdate : Date) (ty : ExplosiveType)
        (qty : Nat),
      ((add_stock_form_submit s serial rdate ty qty).1.stockFile
          = save_csv_data
              ((add_stock_form_submit s serial rdate ty qty).1.stock.map stockDict)
              stock_columns
        ∨ (add_stock_form_submit s serial rdate ty qty).1 = s)
      ∧ (add_stock_form_submit s serial rdate ty qty).1.dataFile = s.dataFile)
    ∧ (∀ (s : AppState) (n : String),
      (add_mine s n).1.dataFile = s.dataFile
      ∧ (add_mine s n).1.stockFile = s.stockFile)
    ∧ (∀ (s : AppState) (i : Nat) (n : String),
      (rename_mine s i n).dataFile = s.dataFile
      ∧ (rename_mine s i n).stockFile = s.stockFile) := by
  refine ⟨?_, ?_, ?_, ?_⟩
  · intro s d
    exact ⟨rfl, rfl⟩
  · intro s serial rdate ty qty
    by_cases h : qty > 0 ∧ serial ≠ ""
    · constructor
      · left
        simp [add_stock_form_submit, h]
      · simp [add_stock_form_submit, h]
    · constructor
      · right
        simp only [add_stock_form_submit, if_neg h]
      · simp only [add_stock_form_submit, if_neg h]
  · intro s n
    unfold add_mine
    by_cases h1 : n = ""
    · simp [h1]
    · by_cases h2 : n ∈ s.mines <;> simp [h1, h2]
  · intro s i n
    unfold rename_mine
    cases h : s.mines.get? i with
    | none => exact ⟨rfl, rfl⟩
    | some m =>
      by_cases hc : n ≠ m ∧ n ≠ "" <;> simp [hc]

/-! ### Durable file format -/

/-- C8 counterexample: passed the empty collection, `save_csv_data`
skips the `df[columns]` projection (an empty `pd.DataFrame` has no
columns) and `to_csv` writes no column header at all, so the file does
not carry the kind's fixed header. -/
theorem save_csv_data_empty_writes_no_header :
    save_csv_data [] issuance_columns = { header := [], rows := [] }
    ∧ (save_csv_data [] issuance_columns).header ≠ issuance_columns
    ∧ (save_csv_data [] stock_columns).header ≠ stock_columns := by
  refine ⟨rfl, by decide, by decide⟩

/-- C8 (amended): for every non-empty collection the durable file is
written with the kind's fixed, ordered column header and each record's
values projected onto exactly that column order; the empty collection
instead produces a file with no header and no rows. -/
theorem save_csv_data_nonempty_header_and_projection :
    (∀ data : List IssuanceRecord, data ≠ [] →
      save_csv_data (data.map issuanceDict) issuance_columns =
        { header := issuance_columns,
          rows := data.map (fun r =>
            [dateStr r.date, r.mine, r.issuedBy, r.receivedBy, r.remarks,
             toString r.wabox, toString r.detonators, toString r.fuse]) })
    ∧ (∀ data : List StockRecord, data ≠ [] →
      save_csv_data (data.map stockDict) stock_columns =
        { header := stock_columns,
          rows := data.map (fun r =>
            [r.serialNo, dateStr r.receivingDate, r.explosiveType.columnName,
             toString r.quantity]) }) := by
  constructor
  · intro data h
    cases data with
    | nil => exact absurd rfl h
    | cons a l =>
      unfold save_csv_data
      rw [if_neg (by simp), List.map_map]
      rfl
  · intro data h
    cases data with
    | nil => exact absurd rfl h
    | cons a l =>
      unfold save_csv_data
      rw [if_neg (by simp), List.map_map]
      rfl

/-- Witness for the amended file-format theorem: the singleton
issuance collection written with the full eight-column header and the
record's fields in column order. -/
theorem save_csv_data_nonempty_witness :
    ([sampleIssuance] ≠ ([] : List IssuanceRecord))
    ∧ save_csv_data ([sampleIssuance].map issuanceDict) issuance_columns =
      { header := issuance_columns,
        rows := [sampleIssuance].map (fun r =>
          [dateStr r.date, r.mine, r.issuedBy, r.receivedBy, r.remarks,
           toString r.wabox, toString r.detonators, toString r.fuse]) } :=
  ⟨by decide,
   save_csv_data_nonempty_header_and_projection.1 [sampleIssuance] (by decide)⟩

/-! ### Monthly and Mine-wise reports -/

/-- A (month, mine) pair is a Monthly group key exactly when some
record of that mine falls in that month. -/
theorem monthlyKeys_mem (data : List IssuanceRecord) (mo : Month) (mi : String) :
    (mo, mi) ∈ monthlyKeys data
      ↔ ∃ r ∈ data, r.mine = mi ∧ monthOf r.date = mo := by
  constructor
  · intro hmem
    rw [monthlyKeys, List.mem_dedup] at hmem
    obtain ⟨r, hr, heq⟩ := List.mem_map.mp hmem
    simp only [Prod.mk.injEq] at heq
    exact ⟨r, hr, heq.2, heq.1⟩
  · intro hex
    obtain ⟨r, hr, h1, h2⟩ := hex
    rw [monthlyKeys, List.mem_dedup]
    exact List.mem_map.mpr ⟨r, hr, by rw [h1, h2]⟩

/-- A (mine, month) pair is a Mine-wise group key exactly when some
record of that mine falls in that month. -/
theorem minewiseKeys_mem (data : List IssuanceRecord) (mi : String) (mo : Month) :
    (mi, mo) ∈ minewiseKeys data
      ↔ ∃ r ∈ data, r.mine = mi ∧ monthOf r.date = mo := by
  constructor
  · intro hmem
    rw [minewiseKeys, List.mem_dedup] at hmem
    obtain ⟨r, hr, heq⟩ := List.mem_map.mp hmem
    simp only [Prod.mk.injEq] at heq
    exact ⟨r, hr, heq.1, heq.2⟩
  · intro hex
    obtain ⟨r, hr, h1, h2⟩ := hex
    rw [minewiseKeys, List.mem_dedup]
    exact List.mem_map.mpr ⟨r, hr, by rw [h1, h2]⟩

/-- Characterization of Monthly report rows: the row's key pair is a
group key and its sums are the group's per-type totals. -/
theorem mem_monthlyReport (data : List IssuanceRecord) (row : GroupRow) :
    row ∈ monthlyReport data
      ↔ (row.month, row.mine) ∈ monthlyKeys data
        ∧ row = groupRowOf data row.mine row.month := by
  constructor
  · intro h
    obtain ⟨k, hk, hrow⟩ := List.mem_map.mp h
    obtain ⟨mo, mi⟩ := k
    subst hrow
    exact ⟨hk, rfl⟩
  · rintro ⟨hk, hrow⟩
    exact List.mem_map.mpr ⟨(row.month, row.mine), hk, hrow.symm⟩

/-- Characterization of Mine-wise report rows. -/
theorem mem_minewiseReport (data : List IssuanceRecord) (row : GroupRow) :
    row ∈ minewiseReport data
      ↔ (row.mine, row.month) ∈ minewiseKeys data
        ∧ row = groupRowOf data row.mine row.month := by
  constructor
  · intro h
    obtain ⟨k, hk, hrow⟩ := List.mem_map.mp h
    obtain ⟨mi, mo⟩ := k
    subst hrow
    exact ⟨hk, rfl⟩
  · rintro ⟨hk, hrow⟩
    exact List.mem_map.mpr ⟨(row.mine, row.month), hk, hrow.symm⟩

/-- C9: the Monthly report (grouped by (Month, Mine)) and the
Mine-wise report (grouped by (Mine, Month)) hold exactly the same
aggregate rows as sets: a row belongs to one exactly when it belongs
to the other, a (mine, month) pair yields a row exactly when the pair
occurs in the data, and each row carries the same per-type sums
(`groupRowOf`) in both reports — the reports differ only in
grouping-key precedence and row ordering. -/
theorem monthly_minewise_reports_agree :
    ∀ data : List IssuanceRecord,
      (∀ row : GroupRow, row ∈ monthlyReport data ↔ row ∈ minewiseReport data)
      ∧ (∀ (mi : String) (mo : Month),
          ((mo, mi) ∈ monthlyKeys data ↔ (mi, mo) ∈ minewiseKeys data)
          ∧ ((mi, mo) ∈ minewiseKeys data
              ↔ ∃ r ∈ data, r.mine = mi ∧ monthOf r.date = mo))
      ∧ (∀ row : GroupRow, row ∈ monthlyReport data →
          row = groupRowOf data row.mine row.month) := by
  intro data
  refine ⟨?_, ?_, ?_⟩
  · intro row
    rw [mem_monthlyReport, mem_minewiseReport, monthlyKeys_mem, minewiseKeys_mem]
  · intro mi mo
    exact ⟨by rw [monthlyKeys_mem, minewiseKeys_mem], minewiseKeys_mem data mi mo⟩
  · intro row hrow
    exact ((mem_monthlyReport data row).mp hrow).2

/-- Witness for the reports-agreement theorem: the Monthly row of
("Mine1", 2024-03) in the two-entry session carries exactly the
group's per-type sums. -/
theorem monthly_minewise_reports_agree_witness :
    groupRowOf twoEntryState.data "Mine1" { year := 2024, month := 3 }
        ∈ monthlyReport twoEntryState.data
    ∧ groupRowOf twoEntryState.data "Mine1" { year := 2024, month := 3 }
        = groupRowOf twoEntryState.data
            (groupRowOf twoEntryState.data "Mine1" { year := 2024, month := 3 }).mine
            (groupRowOf twoEntryState.data "Mine1" { year := 2024, month := 3 }).month :=
  ⟨by decide,
   (monthly_minewise_reports_agree twoEntryState.data).2.2
     (groupRowOf twoEntryState.data "Mine1" { year := 2024, month := 3 }) (by decide)⟩
